import Mathlib

/-!
Verification development for the Athenet DEREST engine.

This file gives a shallow embedding of the parts of the repository that the
checked claims are about, and proves or refutes each claim against it.

Embedded source files:
* `athenet/algorithm/numlike/npinterval.py` — the `NpInterval` class
  (constructor, `add`, `antiadd`, `sub`, `mul`, `square`, and the candidate
  enumeration used by `op_d_norm`).
* `athenet/algorithm/derest/network.py` — `DerestNetwork` /`DerestLayer`
  (forward/backward orchestration, `count_derest`, `count_derest_fc`).
* `athenet/algorithm/derest/layers/inception.py` — `get_derest_layer` and
  `DerestInceptionLayer.count_derivatives`.

Numpy arrays of one shape are modelled as functions `ι → α` from an index
type; numeric entries are modelled as rationals (exact arithmetic), except
for the `op_d_norm` candidate search, which calls `math.sqrt` and real
powers and is therefore modelled over the reals.
-/

/-- Elementwise interval with lower and upper bound arrays, modelling class
`NpInterval` from `athenet/algorithm/numlike/npinterval.py`.  The two numpy
arrays of identical shape are modelled as functions from one index type. -/
structure NpInterval (ι α : Type) where
  lower : ι → α
  upper : ι → α

/-- Embeds `NpInterval.__init__`: the constructor stores `lower` and `upper`
exactly as given; the source performs no validation (it only carries a Todo
comment asking whether the bounds should be swapped when out of order). -/
def NpInterval.init {ι α : Type} (lower upper : ι → α) : NpInterval ι α :=
  ⟨lower, upper⟩

/-- Embeds `NpInterval.__add__`: elementwise sum of the bound arrays. -/
def NpInterval.add {ι α : Type} [Add α] (A B : NpInterval ι α) : NpInterval ι α :=
  ⟨fun i => A.lower i + B.lower i, fun i => A.upper i + B.upper i⟩

/-- Embeds `NpInterval.antiadd`: subtracts `other`'s bounds from the same
side, undoing a previous `__add__`. -/
def NpInterval.antiadd {ι α : Type} [Sub α] (A B : NpInterval ι α) : NpInterval ι α :=
  ⟨fun i => A.lower i - B.lower i, fun i => A.upper i - B.upper i⟩

/-- Embeds `NpInterval.__sub__`: interval difference, lower minus upper and
upper minus lower. -/
def NpInterval.sub {ι α : Type} [Sub α] (A B : NpInterval ι α) : NpInterval ι α :=
  ⟨fun i => A.lower i - B.upper i, fun i => A.upper i - B.lower i⟩

/-- Embeds `NpInterval.__mul__`: the four corner products `ll, lu, ul, uu`
are formed and the result bounds are their elementwise minimum and maximum,
with the same association of `np.minimum`/`np.maximum` as the source. -/
def NpInterval.mul {ι α : Type} [Mul α] [LinearOrder α] (A B : NpInterval ι α) :
    NpInterval ι α :=
  ⟨fun i => min (min (A.lower i * B.lower i) (A.lower i * B.upper i))
              (min (A.upper i * B.lower i) (A.upper i * B.upper i)),
   fun i => max (max (A.lower i * B.lower i) (A.lower i * B.upper i))
              (max (A.upper i * B.lower i) (A.upper i * B.upper i))⟩

/-- Embeds `NpInterval.square`: `ll` and `uu` are the squared bounds, the
result is `[min(ll,uu), max(ll,uu)]`, and then `np.copyto` overwrites the
lower bound with `0` at every position where `lower <= 0 <= upper`. -/
def NpInterval.square {ι α : Type} [Mul α] [Zero α] [LinearOrder α]
    (A : NpInterval ι α) : NpInterval ι α :=
  ⟨fun i => if A.lower i ≤ 0 ∧ 0 ≤ A.upper i then 0
            else min (A.lower i * A.lower i) (A.upper i * A.upper i),
   fun i => max (A.lower i * A.lower i) (A.upper i * A.upper i)⟩

/-- The concrete interval `A = [1, 2]` of the spec's multiplication
scenario, as a one-element `NpInterval`. -/
def mulExampleA : NpInterval (Fin 1) ℚ := ⟨fun _ => 1, fun _ => 2⟩

/-- The concrete interval `B = [-3, -1]` of the spec's multiplication
scenario, as a one-element `NpInterval`. -/
def mulExampleB : NpInterval (Fin 1) ℚ := ⟨fun _ => -3, fun _ => -1⟩

/-- The concrete interval `[-2, 3]` of the spec's `square` scenario. -/
def squareExample : NpInterval (Fin 1) ℚ := ⟨fun _ => -2, fun _ => 3⟩

/-- A lower array that exceeds the paired upper array, used to probe the
constructor's (absent) validation. -/
def invalidLower : Fin 1 → ℚ := fun _ => 1

/-- An upper array smaller than `invalidLower` at every position. -/
def invalidUpper : Fin 1 → ℚ := fun _ => 0

/-- Modelled from the spec: a scalar interval of the theano-backed `Interval`
class (`athenet/algorithm/numlike/interval.py`, not present under `src/`),
which `DerestLayer.count_derest_fc` operates on.  Only the bound pair is
needed. -/
structure Ival where
  lo : ℚ
  hi : ℚ
deriving DecidableEq

/-- Modelled from the spec: interval product by the four-corner rule of
spec section 4.1 (the same rule `NpInterval.__mul__` implements). -/
def Ival.mul (a b : Ival) : Ival :=
  ⟨min (min (a.lo * b.lo) (a.lo * b.hi)) (min (a.hi * b.lo) (a.hi * b.hi)),
   max (max (a.lo * b.lo) (a.lo * b.hi)) (max (a.hi * b.lo) (a.hi * b.hi))⟩

/-- Modelled from the spec: the sign-aware interval-times-scalar product of
spec section 4.1 (for a scalar multiplier the four corners reduce to two). -/
def Ival.mulScalar (a : Ival) (w : ℚ) : Ival :=
  ⟨min (a.lo * w) (a.hi * w), max (a.lo * w) (a.hi * w)⟩

/-- Modelled from the spec: `Interval.eval` yields the stacked pair of the
concrete lower and upper arrays, so `numpy.amax(..., 0)` — the maximum along
the leading stacked axis, as written in `count_derest_fc` — is the
elementwise maximum of the two bounds. -/
def Ival.evalAmax (a : Ival) : ℚ :=
  max a.lo a.hi

/-- Embeds `DerestLayer.count_derest_fc`
(`athenet/algorithm/derest/network.py`): starting from a zero indicator
matrix, for each batch member the outer interval product of the activation
column with that member's derivative row is multiplied elementwise by the
weight matrix, `eval`-ed, reduced by `numpy.amax` along axis 0, and added
into the accumulator. -/
def count_derest_fc {n m k : ℕ} (W : Fin m → Fin k → ℚ) (act : Fin m → Ival)
    (ders : Fin n → Fin k → Ival) : Fin m → Fin k → ℚ :=
  (List.finRange n).foldl
    (fun indicators b => fun i j =>
      indicators i j + Ival.evalAmax (Ival.mulScalar (Ival.mul (act i) (ders b j)) (W i j)))
    (fun _ _ => 0)

/-- The fully-connected indicator as the claim words it: per weight,
`max(0, activation[i] ⊗ derivative[j] ⊗ w[i,j])` — the sign-aware interval
product clamped at zero — aggregated by taking the maximum, not the sum,
over the batch members. -/
def claim_fc_indicator {n m k : ℕ} (W : Fin m → Fin k → ℚ) (act : Fin m → Ival)
    (ders : Fin n → Fin k → Ival) : Fin m → Fin k → ℚ :=
  fun i j =>
    (List.finRange n).foldl
      (fun acc b => max acc (max 0 (Ival.mulScalar (Ival.mul (act i) (ders b j)) (W i j)).hi))
      0

/-- Weight matrix of the concrete fully-connected counterexample: a single
weight of value 1. -/
def fcExampleW : Fin 1 → Fin 1 → ℚ := fun _ _ => 1

/-- Activation interval of the fully-connected counterexample: the
degenerate interval `[1, 1]`. -/
def fcExampleAct : Fin 1 → Ival := fun _ => ⟨1, 1⟩

/-- Derivative intervals of the fully-connected counterexample: two batch
members, both the degenerate interval `[1, 1]`. -/
def fcExampleDers : Fin 2 → Fin 1 → Ival := fun _ _ => ⟨1, 1⟩

/-- Layer kinds distinguished by the `isinstance` dispatch of the derest
code; `other` stands for any class outside the registered ones. -/
inductive LayerKind where
  | softmax
  | relu
  | pooling
  | lrn
  | convolutional
  | dropout
  | fullyConnected
  | inception
  | other
deriving DecidableEq

/-- Python exceptions raised by the embedded derest code. -/
inductive PyErr where
  | notImplementedError
  | attributeError
deriving DecidableEq

/-- Result tags for `get_derest_layer`, standing for the per-kind derest
layer objects it constructs. -/
inductive DerestTag where
  | softmaxL
  | reluL
  | poolL
  | normL
  | convL
  | dropoutL
  | fcL
  | inceptionL
deriving DecidableEq

/-- Embeds `get_derest_layer`
(`athenet/algorithm/derest/layers/inception.py`): the `isinstance` chain over
the eight registered layer classes, in source order, falling through to
`raise NotImplementedError` for any other class. -/
def get_derest_layer : LayerKind → Except PyErr DerestTag
  | .softmax => .ok .softmaxL
  | .relu => .ok .reluL
  | .pooling => .ok .poolL
  | .lrn => .ok .normL
  | .convolutional => .ok .convL
  | .dropout => .ok .dropoutL
  | .fullyConnected => .ok .fcL
  | .inception => .ok .inceptionL
  | .other => .error .notImplementedError

/-- A network layer as `DerestNetwork` consumes it: its kind, plus the
forward transform `count_activation(input, layer)` and the backward
transform `count_derivative(output, activations, input_shape, layer)` from
`athenet.algorithm.derest.activation` / `.derivative` (modules not present
under `src/`), abstracted as functions. -/
structure NetLayer (α β : Type) where
  kind : LayerKind
  f : α → α
  g : β → Option α → β

/-- Embeds class `DerestLayer` of `athenet/algorithm/derest/network.py`: the
wrapped layer plus the `activations` and `derivatives` buffers, which start
as `None`. -/
structure DerestLayer (α β : Type) where
  layer : NetLayer α β
  activations : Option α
  derivatives : Option β

/-- Embeds `DerestNetwork.__init__`: every layer of the network is wrapped
in a `DerestLayer` with empty buffers; no layer-kind validation happens. -/
def DerestNetwork.init {α β : Type} (layers : List (NetLayer α β)) :
    List (DerestLayer α β) :=
  layers.map fun l => ⟨l, none, none⟩

/-- Embeds `DerestLayer.count_activation`: stores the incoming interval in
`self.activations` and returns the forward transform of the input. -/
def DerestLayer.count_activation {α β : Type} (l : DerestLayer α β) (inp : α) :
    DerestLayer α β × α :=
  (⟨l.layer, some inp, l.derivatives⟩, l.layer.f inp)

/-- Embeds `DerestLayer.count_derivatives`: stores the incoming derivative
interval in `self.derivatives` and returns the backward transform, which
reads `self.activations`. -/
def DerestLayer.count_derivatives {α β : Type} (l : DerestLayer α β) (outp : β) :
    DerestLayer α β × β :=
  (⟨l.layer, l.activations, some outp⟩, l.layer.g outp l.activations)

/-- Embeds `DerestNetwork.count_activations`: threads the input through the
layers in declared order, letting each store its activation.  Alongside the
updated layers and the final interval it records the trace of layer indices
whose activation buffer was written, in write order. -/
def DerestNetwork.count_activations {α β : Type} :
    List (DerestLayer α β) → α → List (DerestLayer α β) × α × List ℕ
  | [], inp => ([], inp, [])
  | l :: ls, inp =>
    let p := l.count_activation inp
    let r := DerestNetwork.count_activations ls p.2
    (p.1 :: r.1, r.2.1, 0 :: r.2.2.map (· + 1))

/-- Embeds `DerestNetwork.count_derivatives`: the loop
`for i in range(len(self.layers) - 1, -1, -1)` threads the derivative
through the layers in reverse index order.  Alongside the updated layers and
the final interval it records, per derivative-buffer write in write order,
the layer index and whether that layer's activation buffer was present at
the moment of the write. -/
def DerestNetwork.count_derivatives {α β : Type} :
    List (DerestLayer α β) → β → List (DerestLayer α β) × β × List (ℕ × Bool)
  | [], outp => ([], outp, [])
  | l :: ls, outp =>
    let r := DerestNetwork.count_derivatives ls outp
    let p := l.count_derivatives r.2.1
    (p.1 :: r.1, p.2, r.2.2.map (fun q => (q.1 + 1, q.2)) ++ [(0, l.activations.isSome)])

/-- Stand-ins for the indicator arrays produced by `count_derest_conv` and
`count_derest_fc`; for the dispatch behaviour only the kind of result
matters (the fully-connected computation itself is embedded separately as
`count_derest_fc`). -/
inductive DerestResult where
  | convIndicators
  | fcIndicators
deriving DecidableEq

/-- Embeds `DerestLayer.count_derest`
(`athenet/algorithm/derest/network.py`): `isinstance` dispatch to the
convolutional or fully-connected indicator computation,
`raise NotImplementedError` for Inception, and an implicit `return None` —
no error — for every other layer kind. -/
def DerestLayer.count_derest {α β : Type} (l : DerestLayer α β) :
    Except PyErr (Option DerestResult) :=
  match l.layer.kind with
  | .convolutional => .ok (some .convIndicators)
  | .fullyConnected => .ok (some .fcIndicators)
  | .inception => .error .notImplementedError
  | _ => .ok (none)

/-- A concrete layer whose kind is outside the registered ones, with
identity transforms. -/
def unknownNetLayer : NetLayer ℚ ℚ :=
  ⟨.other, id, fun b _ => b⟩

/-- Embeds the `output_list` construction of
`DerestInceptionLayer.count_derivatives`: walking the composite's
`top_layers`, each branch's declared output width takes the next `width`
consecutive channels (`output[:, last:last+width, ::]`) of every batch row,
advancing the running offset `last`.  A batch row is modelled as a list with
one entry per channel. -/
def output_slices : List ℕ → ℕ → List (List ℚ) → List (List (List ℚ))
  | [], _, _ => []
  | w :: ws, last, output =>
    (output.map fun r => (r.drop last).take w) :: output_slices ws (last + w) output

/-- Embeds the result loop of `DerestInceptionLayer.count_derivatives`:
`for output, derest_list in zip(output, self.derest_layer_lists)` iterates
the *unsplit* interval's leading-axis (batch) slices against the branch
lists — the freshly built `output_list` is not the zipped structure.  For a
nonempty branch list the inner loop executes
`out = derest_list.count_derivatives(out)` on the Python list object, which
has no such attribute, raising `AttributeError`; for an empty branch list the
inner loop body never runs and the batch slice is accumulated into the
result by interval addition. -/
def inception_loop {γ : Type} :
    List (List ℚ) → List (List γ) → Option (List ℚ) → Except PyErr (Option (List ℚ))
  | row :: rows, dl :: dls, res =>
    match dl with
    | [] => inception_loop rows dls (some (match res with
              | none => row
              | some q => List.zipWith (fun a b => a + b) q row))
    | _ :: _ => Except.error PyErr.attributeError
  | _, _, res => Except.ok res

/-- Embeds `DerestInceptionLayer.count_derivatives`
(`athenet/algorithm/derest/layers/inception.py`): builds the channel-axis
slice list from the branches' declared widths — which the remainder of the
method never reads — and then runs the mismatched zip loop on the unsplit
interval. -/
def DerestInceptionLayer.count_derivatives {γ : Type} (top_widths : List ℕ)
    (derest_layer_lists : List (List γ)) (output : List (List ℚ)) :
    Except PyErr (Option (List ℚ)) :=
  let _output_list := output_slices top_widths 0 output
  inception_loop output derest_layer_lists none

/-- Embeds the nested function `der_not_eq` of `NpInterval.op_d_norm`: the
derivative of the LRN function with respect to a neighbouring element `x`
not in the denominator position `y`, with `c` the constant-plus-remaining
squares term.  The float power is modelled as the real power. -/
noncomputable def der_not_eq (alpha beta x y c : ℝ) : ℝ :=
  -2 * alpha * beta * x * y / (c + alpha * (x ^ 2 + y ^ 2)) ^ (beta + 1)

/-- Embeds the nested function `extremas_3d_dc` of `NpInterval.op_d_norm`:
box corners together with `x = 0` and `y = 0` sections, filtered to the
box. -/
noncomputable def extremas_3d_dc (xl xu yl yu cl cu : ℝ) : List (ℝ × ℝ × ℝ) :=
  (([xl, xu, 0].flatMap fun x => [yl, yu, 0].flatMap fun y => [cl, cu].map fun c => (x, y, c))).filter
    fun p => decide (xl ≤ p.1 ∧ p.1 ≤ xu) && decide (yl ≤ p.2.1 ∧ p.2.1 ≤ yu)

/-- Embeds the nested function `extremas_3d_dx` of `NpInterval.op_d_norm`:
roots of the `x`-partial on the `y`/`c` faces, `x = ±sqrt((c + α y²)/(α(2β+1)))`,
filtered to the box.  `alpha` and `beta` are the closed-over parameters. -/
noncomputable def extremas_3d_dx (alpha beta xl xu yl yu cl cu : ℝ) : List (ℝ × ℝ × ℝ) :=
  ((([yl, yu].flatMap fun y => [cl, cu].map fun c =>
      (Real.sqrt ((c + alpha * y ^ 2) / (alpha * (2 * beta + 1))), y, c))) ++
   (([yl, yu].flatMap fun y => [cl, cu].map fun c =>
      (-Real.sqrt ((c + alpha * y ^ 2) / (alpha * (2 * beta + 1))), y, c)))).filter
    fun p => decide (xl ≤ p.1 ∧ p.1 ≤ xu) && decide (yl ≤ p.2.1 ∧ p.2.1 ≤ yu)

/-- Embeds the nested function `extremas_3d_dy` of `NpInterval.op_d_norm`:
roots of the `y`-partial, `y = ±sqrt((c + α x²)/(α(2β+1)))`, filtered to the
box. -/
noncomputable def extremas_3d_dy (alpha beta xl xu yl yu cl cu : ℝ) : List (ℝ × ℝ × ℝ) :=
  ((([xl, xu].flatMap fun x => [cl, cu].map fun c =>
      (x, Real.sqrt ((c + alpha * x ^ 2) / (alpha * (2 * beta + 1))), c))) ++
   (([xl, xu].flatMap fun x => [cl, cu].map fun c =>
      (x, -Real.sqrt ((c + alpha * x ^ 2) / (alpha * (2 * beta + 1))), c)))).filter
    fun p => decide (xl ≤ p.1 ∧ p.1 ≤ xu) && decide (yl ≤ p.2.1 ∧ p.2.1 ≤ yu)

/-- Embeds the nested function `extremas_3d_dxdy` of `NpInterval.op_d_norm`:
the simultaneous critical points `x, y = ±sqrt(c/(2αβ))` interior to the
`c`-faces.  The source defines this function but never adds its points to
the candidate list. -/
noncomputable def extremas_3d_dxdy (alpha beta xl xu yl yu cl cu : ℝ) : List (ℝ × ℝ × ℝ) :=
  let vals := [cl, cu].flatMap fun c => [-1, 1].map fun sgn => sgn * Real.sqrt (c / (2 * alpha * beta))
  ((vals.flatMap fun x => vals.flatMap fun y => [cl, cu].map fun c => (x, y, c))).filter
    fun p => decide (xl ≤ p.1 ∧ p.1 ≤ xu) && decide (yl ≤ p.2.1 ∧ p.2.1 ≤ yu)

/-- Embeds the accumulation loop of the `not_eq` case of
`NpInterval.op_d_norm`: starting from an empty `NpInterval()`, each
candidate's `der_not_eq` value lowers the lower bound and raises the upper
bound. -/
noncomputable def der_from_extremas (alpha beta : ℝ) (extremas : List (ℝ × ℝ × ℝ)) :
    Option (ℝ × ℝ) :=
  extremas.foldl
    (fun der p =>
      match der with
      | none => some (der_not_eq alpha beta p.1 p.2.1 p.2.2,
                      der_not_eq alpha beta p.1 p.2.1 p.2.2)
      | some q => some (min q.1 (der_not_eq alpha beta p.1 p.2.1 p.2.2),
                        max q.2 (der_not_eq alpha beta p.1 p.2.1 p.2.2)))
    none

/-- The candidate list `op_d_norm` actually uses in the `not_eq` case —
`extremas_3d_dc + extremas_3d_dx + extremas_3d_dy`, the `dxdy` points
omitted — at the failing input `α = 1`, `β = 1`, activation boxes
`X = Y = [-5, 5]` and denominator constant `C = [2, 2]` (two channels,
`k = 2`). -/
noncomputable def norm_bug_extremas : List (ℝ × ℝ × ℝ) :=
  extremas_3d_dc (-5) 5 (-5) 5 2 2 ++
    extremas_3d_dx 1 1 (-5) 5 (-5) 5 2 2 ++
    extremas_3d_dy 1 1 (-5) 5 (-5) 5 2 2

/-- Helper: multiplying a fixed value by anything inside an interval lands
between the two corner products (left multiplication). -/
theorem mul_bound_left {α : Type} [LinearOrderedRing α] (x : α) {bl bu b : α}
    (h1 : bl ≤ b) (h2 : b ≤ bu) :
    min (x * bl) (x * bu) ≤ x * b ∧ x * b ≤ max (x * bl) (x * bu) := by
  rcases le_total 0 x with hx | hx
  · exact ⟨le_trans (min_le_left _ _) (mul_le_mul_of_nonneg_left h1 hx),
      le_trans (mul_le_mul_of_nonneg_left h2 hx) (le_max_right _ _)⟩
  · exact ⟨le_trans (min_le_right _ _) (mul_le_mul_of_nonpos_left h2 hx),
      le_trans (mul_le_mul_of_nonpos_left h1 hx) (le_max_left _ _)⟩

/-- Helper: multiplying anything inside an interval by a fixed value lands
between the two corner products (right multiplication). -/
theorem mul_bound_right {α : Type} [LinearOrderedRing α] (y : α) {al au a : α}
    (h1 : al ≤ a) (h2 : a ≤ au) :
    min (al * y) (au * y) ≤ a * y ∧ a * y ≤ max (al * y) (au * y) := by
  rcases le_total 0 y with hy | hy
  · exact ⟨le_trans (min_le_left _ _) (mul_le_mul_of_nonneg_right h1 hy),
      le_trans (mul_le_mul_of_nonneg_right h2 hy) (le_max_right _ _)⟩
  · exact ⟨le_trans (min_le_right _ _) (mul_le_mul_of_nonpos_right h2 hy),
      le_trans (mul_le_mul_of_nonpos_right h1 hy) (le_max_left _ _)⟩

/-- Helper: the product of two values drawn from two intervals lies between
the minimum and the maximum of the four corner products. -/
theorem mul_corner_bounds {α : Type} [LinearOrderedRing α] {al au bl bu a b : α}
    (ha1 : al ≤ a) (ha2 : a ≤ au) (hb1 : bl ≤ b) (hb2 : b ≤ bu) :
    min (min (al * bl) (al * bu)) (min (au * bl) (au * bu)) ≤ a * b ∧
      a * b ≤ max (max (al * bl) (al * bu)) (max (au * bl) (au * bu)) := by
  obtain ⟨hL, hR⟩ := mul_bound_right b ha1 ha2
  obtain ⟨hL1, hR1⟩ := mul_bound_left al hb1 hb2
  obtain ⟨hL2, hR2⟩ := mul_bound_left au hb1 hb2
  exact ⟨le_trans (min_le_min hL1 hL2) hL, le_trans hR (max_le_max hR1 hR2)⟩

/-- C1: for same-shaped valid intervals, `NpInterval.__mul__` returns at
every position the minimum and maximum of the four corner products
`ll, lu, ul, uu`; hence every concrete product of members is contained in
the result, and in particular `[1,2] * [-3,-1] = [-6,-1]`. -/
theorem C1_mul_corner_products {ι : Type} (A B : NpInterval ι ℚ) (i : ι)
    (hA : A.lower i ≤ A.upper i) (hB : B.lower i ≤ B.upper i) :
    ((A.mul B).lower i =
        min (min (A.lower i * B.lower i) (A.lower i * B.upper i))
          (min (A.upper i * B.lower i) (A.upper i * B.upper i)) ∧
      (A.mul B).upper i =
        max (max (A.lower i * B.lower i) (A.lower i * B.upper i))
          (max (A.upper i * B.lower i) (A.upper i * B.upper i))) ∧
    (∀ a b : ℚ, A.lower i ≤ a → a ≤ A.upper i → B.lower i ≤ b → b ≤ B.upper i →
      (A.mul B).lower i ≤ a * b ∧ a * b ≤ (A.mul B).upper i) ∧
    ((mulExampleA.mul mulExampleB).lower 0 = -6 ∧
      (mulExampleA.mul mulExampleB).upper 0 = -1) := by
  refine ⟨⟨rfl, rfl⟩, ?_, ?_⟩
  · intro a b ha1 ha2 hb1 hb2
    exact mul_corner_bounds ha1 ha2 hb1 hb2
  · constructor <;> norm_num [NpInterval.mul, mulExampleA, mulExampleB]

/-- Witness for C1 at the spec's concrete scenario: `3/2 ∈ [1,2]`,
`-2 ∈ [-3,-1]`, so their product lies inside `[1,2] * [-3,-1]`. -/
theorem C1_mul_corner_products_witness :
    (mulExampleA.mul mulExampleB).lower 0 ≤ (3 / 2 : ℚ) * (-2) ∧
      (3 / 2 : ℚ) * (-2) ≤ (mulExampleA.mul mulExampleB).upper 0 :=
  (C1_mul_corner_products mulExampleA mulExampleB 0
      (by norm_num [mulExampleA]) (by norm_num [mulExampleB])).2.1
    (3 / 2) (-2) (by norm_num [mulExampleA]) (by norm_num [mulExampleA])
    (by norm_num [mulExampleB]) (by norm_num [mulExampleB])

/-- C2: on valid operands, each implemented operator — addition,
subtraction, multiplication and square — returns an interval whose lower
bound is at most its upper bound at every position. -/
theorem C2_ops_preserve_valid {ι : Type} (A B : NpInterval ι ℚ) (i : ι)
    (hA : A.lower i ≤ A.upper i) (hB : B.lower i ≤ B.upper i) :
    (A.add B).lower i ≤ (A.add B).upper i ∧
      (A.sub B).lower i ≤ (A.sub B).upper i ∧
      (A.mul B).lower i ≤ (A.mul B).upper i ∧
      A.square.lower i ≤ A.square.upper i := by
  refine ⟨?_, ?_, ?_, ?_⟩
  · simp only [NpInterval.add]
    exact add_le_add hA hB
  · simp only [NpInterval.sub]
    exact sub_le_sub hA hB
  · simp only [NpInterval.mul]
    exact le_trans (min_le_left _ _)
      (le_trans (le_trans (min_le_left _ _) (le_max_left _ _)) (le_max_left _ _))
  · simp only [NpInterval.square]
    by_cases h : A.lower i ≤ 0 ∧ 0 ≤ A.upper i
    · simp only [if_pos h]
      exact le_trans (mul_self_nonneg (A.lower i)) (le_max_left _ _)
    · simp only [if_neg h]
      exact min_le_max

/-- Witness for C2 at the concrete valid intervals `[1,2]` and `[-3,-1]`. -/
theorem C2_ops_preserve_valid_witness :
    (mulExampleA.add mulExampleB).lower 0 ≤ (mulExampleA.add mulExampleB).upper 0 ∧
      (mulExampleA.sub mulExampleB).lower 0 ≤ (mulExampleA.sub mulExampleB).upper 0 ∧
      (mulExampleA.mul mulExampleB).lower 0 ≤ (mulExampleA.mul mulExampleB).upper 0 ∧
      mulExampleA.square.lower 0 ≤ mulExampleA.square.upper 0 :=
  C2_ops_preserve_valid mulExampleA mulExampleB 0
    (by norm_num [mulExampleA]) (by norm_num [mulExampleB])

/-- C6: `NpInterval.square` returns `[0, max(lower², upper²)]` at every
position straddling zero and the min/max of the two squared corners
elsewhere; in particular `square([-2,3]) = [0,9]`. -/
theorem C6_square_straddle {ι : Type} (A : NpInterval ι ℚ) (i : ι) :
    (A.lower i ≤ 0 → 0 ≤ A.upper i →
      A.square.lower i = 0 ∧
        A.square.upper i = max (A.lower i * A.lower i) (A.upper i * A.upper i)) ∧
    (¬(A.lower i ≤ 0 ∧ 0 ≤ A.upper i) →
      A.square.lower i = min (A.lower i * A.lower i) (A.upper i * A.upper i) ∧
        A.square.upper i = max (A.lower i * A.lower i) (A.upper i * A.upper i)) ∧
    (squareExample.square.lower 0 = 0 ∧ squareExample.square.upper 0 = 9) := by
  refine ⟨?_, ?_, ?_⟩
  · intro h1 h2
    simp only [NpInterval.square, if_pos (And.intro h1 h2)]
    exact ⟨trivial, trivial⟩
  · intro h
    simp only [NpInterval.square, if_neg h]
    exact ⟨trivial, trivial⟩
  · constructor <;> norm_num [NpInterval.square, squareExample]

/-- Witness for C6 at the spec's concrete scenario `square([-2,3])`. -/
theorem C6_square_straddle_witness :
    squareExample.square.lower 0 = 0 ∧
      squareExample.square.upper 0 =
        max (squareExample.lower 0 * squareExample.lower 0)
          (squareExample.upper 0 * squareExample.upper 0) :=
  (C6_square_straddle squareExample 0).1
    (by norm_num [squareExample]) (by norm_num [squareExample])

/-- C9 counterexample: `NpInterval.__init__` accepts a lower array that
exceeds the upper array — no error is signalled and the produced interval
has `lower > upper`. -/
theorem C9_init_unchecked_counterexample :
    (NpInterval.init invalidLower invalidUpper).upper 0 <
      (NpInterval.init invalidLower invalidUpper).lower 0 := by
  norm_num [NpInterval.init, invalidLower, invalidUpper]

/-- C9 amended: the constructor performs no validation at all — it stores
the given bound arrays verbatim, whatever their order. -/
theorem C9_init_stores_bounds {ι α : Type} (lo up : ι → α) :
    (NpInterval.init lo up).lower = lo ∧ (NpInterval.init lo up).upper = up :=
  ⟨rfl, rfl⟩

/-- C10: `antiadd` undoes `__add__` exactly — `(A + B).antiadd(B) = A` as
structures — while interval subtraction `(A + B) - B` strictly lowers the
lower bound whenever `B` is nondegenerate. -/
theorem C10_antiadd_exact_inverse {ι : Type} (A B : NpInterval ι ℚ) (i : ι) :
    (A.add B).antiadd B = A ∧
      (B.lower i < B.upper i → ((A.add B).sub B).lower i < A.lower i) := by
  constructor
  · cases A
    cases B
    simp only [NpInterval.add, NpInterval.antiadd, NpInterval.mk.injEq]
    constructor <;> funext j <;> ring
  · intro h
    simp only [NpInterval.add, NpInterval.sub]
    linarith

/-- Witness for C10 at `A = [-3,-1]`, `B = [1,2]`. -/
theorem C10_antiadd_exact_inverse_witness :
    (mulExampleB.add mulExampleA).antiadd mulExampleA = mulExampleB ∧
      ((mulExampleB.add mulExampleA).sub mulExampleA).lower 0 < mulExampleB.lower 0 :=
  ⟨(C10_antiadd_exact_inverse mulExampleB mulExampleA 0).1,
    (C10_antiadd_exact_inverse mulExampleB mulExampleA 0).2 (by norm_num [mulExampleA])⟩

/-- Helper: applying the accumulation loop of `count_derest_fc` at one
matrix entry yields the accumulator entry plus the sum of that entry's
per-batch contributions. -/
theorem count_derest_fc_foldl {n m k : ℕ} (W : Fin m → Fin k → ℚ) (act : Fin m → Ival)
    (ders : Fin n → Fin k → Ival) :
    ∀ (l : List (Fin n)) (acc : Fin m → Fin k → ℚ) (i : Fin m) (j : Fin k),
      (l.foldl (fun indicators b => fun i j =>
          indicators i j + Ival.evalAmax (Ival.mulScalar (Ival.mul (act i) (ders b j)) (W i j)))
        acc) i j =
        acc i j +
          (l.map fun b =>
            Ival.evalAmax (Ival.mulScalar (Ival.mul (act i) (ders b j)) (W i j))).sum
  | [], acc, i, j => by simp
  | b :: bs, acc, i, j => by
    rw [List.foldl_cons, count_derest_fc_foldl W act ders bs, List.map_cons, List.sum_cons]
    ring

/-- Helper: the sign-aware interval-times-scalar product always has its
lower bound at most its upper bound, so the `amax` of its evaluated pair is
its upper bound. -/
theorem evalAmax_mulScalar (v : Ival) (w : ℚ) :
    (v.mulScalar w).evalAmax = (v.mulScalar w).hi :=
  max_eq_right min_le_max

/-- C5 counterexample: with one weight `w = 1`, activation `[1,1]` and two
batch members with derivative `[1,1]`, the code's indicator is `2` (the
per-batch contributions are summed) while the claim's formula — maxed, not
summed, across batch members — gives `1`. -/
theorem C5_fc_aggregation_counterexample :
    count_derest_fc fcExampleW fcExampleAct fcExampleDers 0 0 = 2 ∧
      claim_fc_indicator fcExampleW fcExampleAct fcExampleDers 0 0 = 1 := by
  constructor <;>
    norm_num [count_derest_fc, claim_fc_indicator, List.finRange_succ_eq_map,
      List.finRange_zero, fcExampleW, fcExampleAct, fcExampleDers,
      Ival.mul, Ival.mulScalar, Ival.evalAmax]

/-- C5 amended: `count_derest_fc` aggregates by summation over the batch
members, each contribution being the upper bound of the interval product
`activation[i] ⊗ derivative[j] ⊗ w[i,j]` (the `numpy.amax` along the stacked
eval axis), with no clamping at zero. -/
theorem C5_fc_sum_of_upper {n m k : ℕ} (W : Fin m → Fin k → ℚ) (act : Fin m → Ival)
    (ders : Fin n → Fin k → Ival) (i : Fin m) (j : Fin k) :
    count_derest_fc W act ders i j =
      ((List.finRange n).map fun b =>
        (Ival.mulScalar (Ival.mul (act i) (ders b j)) (W i j)).hi).sum := by
  unfold count_derest_fc
  rw [count_derest_fc_foldl W act ders]
  simp only [evalAmax_mulScalar, zero_add]

/-- A concrete registered layer of unweighted kind (Dropout), used to probe
the silent skip in `count_derest`. -/
def dropoutNetLayer : NetLayer ℚ ℚ :=
  ⟨.dropout, id, fun b _ => b⟩

/-- C8 counterexample: building the derest engine over a network containing
a layer of unregistered kind succeeds — `DerestNetwork.__init__` wraps the
layer without any check — and `count_derest` then silently yields `None`
for it. -/
theorem C8_unknown_kind_counterexample :
    DerestNetwork.init [unknownNetLayer] = [⟨unknownNetLayer, none, none⟩] ∧
      (DerestLayer.mk unknownNetLayer none none).count_derest = Except.ok none :=
  ⟨rfl, rfl⟩

/-- C8 amended: `get_derest_layer` (used when Inception branches are built)
raises `NotImplementedError` exactly for unregistered kinds, but
`DerestNetwork.__init__` wraps every layer of any kind without error, and
`DerestLayer.count_derest` silently returns `None` for every kind other
than Convolutional, FullyConnected and Inception. -/
theorem C8_dispatch_behavior (k : LayerKind) (ls : List (NetLayer ℚ ℚ)) :
    (DerestNetwork.init ls).length = ls.length ∧
      ((∃ t, get_derest_layer k = Except.ok t) ↔ k ≠ LayerKind.other) ∧
      (∀ l : DerestLayer ℚ ℚ, l.layer.kind = k →
        k ≠ LayerKind.convolutional → k ≠ LayerKind.fullyConnected →
          k ≠ LayerKind.inception → l.count_derest = Except.ok none) := by
  refine ⟨by simp [DerestNetwork.init], ?_, ?_⟩
  · cases k <;> simp [get_derest_layer]
  · intro l hl h1 h2 h3
    unfold DerestLayer.count_derest
    rw [hl]
    cases k <;> simp_all

/-- Witness for C8 at the Dropout kind: its `count_derest` silently yields
`None`. -/
theorem C8_dispatch_behavior_witness :
    (DerestLayer.mk dropoutNetLayer none none).count_derest = Except.ok none :=
  (C8_dispatch_behavior LayerKind.dropout []).2.2
    (DerestLayer.mk dropoutNetLayer none none) rfl
    (by decide) (by decide) (by decide)

/-- C4: evaluating `DerestInceptionLayer.count_derivatives` on an Inception
composite with two width-1 branches and a one-row derivative interval: the
branch-width slices are computed correctly, but the mismatched zip makes the
method call `count_derivatives` on a Python list, so the whole backward
transform raises `AttributeError` instead of combining per-branch backward
results. -/
theorem C4_inception_backward_attribute_error :
    DerestInceptionLayer.count_derivatives [1, 1] [[()], [()]] [[(1 : ℚ), 2]] =
        Except.error PyErr.attributeError ∧
      output_slices [1, 1] 0 [[(1 : ℚ), 2]] = [[[1]], [[2]]] :=
  ⟨rfl, rfl⟩

/-- Helper: the forward pass writes the activation buffers in declared
layer order, index by index. -/
theorem count_activations_trace {α β : Type} :
    ∀ (ls : List (DerestLayer α β)) (inp : α),
      (DerestNetwork.count_activations ls inp).2.2 = List.range ls.length
  | [], _ => rfl
  | l :: ls, inp => by
    simp only [DerestNetwork.count_activations, List.length_cons,
      List.range_succ_eq_map, count_activations_trace ls]

/-- Helper: the forward pass keeps one updated layer per input layer. -/
theorem count_activations_length {α β : Type} :
    ∀ (ls : List (DerestLayer α β)) (inp : α),
      (DerestNetwork.count_activations ls inp).1.length = ls.length
  | [], _ => rfl
  | l :: ls, inp => by
    simp only [DerestNetwork.count_activations, List.length_cons,
      count_activations_length ls]

/-- Helper: after the forward pass every layer's activation buffer is
filled. -/
theorem count_activations_all_some {α β : Type} :
    ∀ (ls : List (DerestLayer α β)) (inp : α),
      ∀ l ∈ (DerestNetwork.count_activations ls inp).1, l.activations.isSome
  | [], _ => by intro l h; cases h
  | l :: ls, inp => by
    intro l' h
    simp only [DerestNetwork.count_activations, List.mem_cons] at h
    rcases h with h | h
    · subst h; rfl
    · exact count_activations_all_some ls _ l' h

/-- Helper: when every layer's activation buffer is already filled, the
backward pass writes the derivative buffers in exact reverse index order,
and at each write the layer's activation is present. -/
theorem count_derivatives_trace {α β : Type} :
    ∀ (ls : List (DerestLayer α β)) (outp : β),
      (∀ l ∈ ls, l.activations.isSome) →
        (DerestNetwork.count_derivatives ls outp).2.2 =
          (List.range ls.length).reverse.map (fun i => (i, true))
  | [], _, _ => rfl
  | l :: ls, outp, h => by
    have hl : l.activations.isSome = true := h l (List.mem_cons_self l ls)
    have hls := count_derivatives_trace ls outp (fun x hx => h x (List.mem_cons_of_mem l hx))
    simp only [DerestNetwork.count_derivatives, hls, List.length_cons,
      List.range_succ_eq_map, List.reverse_cons, List.map_reverse, List.map_map,
      List.map_append, List.map_cons, List.map_nil, hl]
    rfl

/-- Helper: when every layer's activation buffer is already filled, the
backward pass fills every derivative buffer while keeping the activation
buffers filled. -/
theorem count_derivatives_all_some {α β : Type} :
    ∀ (ls : List (DerestLayer α β)) (outp : β),
      (∀ l ∈ ls, l.activations.isSome) →
        ∀ l ∈ (DerestNetwork.count_derivatives ls outp).1,
          l.activations.isSome ∧ l.derivatives.isSome
  | [], _, _ => by intro l h; cases h
  | l :: ls, outp, h => by
    intro l' h'
    simp only [DerestNetwork.count_derivatives, List.mem_cons] at h'
    rcases h' with h' | h'
    · subst h'
      exact ⟨h l (List.mem_cons_self l ls), rfl⟩
    · exact count_derivatives_all_some ls outp
        (fun x hx => h x (List.mem_cons_of_mem l hx)) l' h'

/-- C7: running `DerestNetwork.count_activations` and then
`DerestNetwork.count_derivatives` writes each layer's activation exactly
once in declared order, then each layer's derivative exactly once in exact
reverse order, each derivative write finding its layer's activation already
present; afterwards every layer holds both buffers. -/
theorem C7_propagation_order {α β : Type} (ls : List (DerestLayer α β)) (inp : α) (outp : β) :
    (DerestNetwork.count_activations ls inp).2.2 = List.range ls.length ∧
      (DerestNetwork.count_derivatives (DerestNetwork.count_activations ls inp).1 outp).2.2 =
        (List.range ls.length).reverse.map (fun i => (i, true)) ∧
      ∀ l ∈ (DerestNetwork.count_derivatives (DerestNetwork.count_activations ls inp).1 outp).1,
        l.activations.isSome ∧ l.derivatives.isSome := by
  refine ⟨count_activations_trace ls inp, ?_, ?_⟩
  · rw [count_derivatives_trace _ outp (count_activations_all_some ls inp),
      count_activations_length ls inp]
  · exact count_derivatives_all_some _ outp (count_activations_all_some ls inp)

/-- Helper: the square root of nine. -/
theorem sqrt_nine : Real.sqrt 9 = 3 := by
  rw [show (9 : ℝ) = 3 ^ 2 by norm_num]
  exact Real.sqrt_sq (by norm_num)

/-- Helper: the quotient form in which the candidate roots appear after
numeric normalisation. -/
theorem sqrt_27_div_sqrt_3 : Real.sqrt 27 / Real.sqrt 3 = 3 := by
  rw [show (27 : ℝ) = 9 * 3 by norm_num, Real.sqrt_mul (by norm_num : (0:ℝ) ≤ 9),
    sqrt_nine, mul_div_assoc, div_self (Real.sqrt_ne_zero'.mpr (by norm_num)), mul_one]

/-- Helper: at `α = β = 1`, `c = 2`, the local derivative is the rational
function `-2xy/(2 + x² + y²)²`. -/
theorem der_not_eq_eval (x y : ℝ) :
    der_not_eq 1 1 x y 2 = -2 * x * y / (2 + (x ^ 2 + y ^ 2)) ^ 2 := by
  rw [der_not_eq, show ((1 : ℝ) + 1) = ((2 : ℕ) : ℝ) by norm_num, Real.rpow_natCast]
  ring_nf

/-- Helper: the `dc` candidates at the failing input are the box corners
and axis sections, every one inside the box. -/
theorem dc_eval : extremas_3d_dc (-5) 5 (-5) 5 2 2 =
    [(-5, -5, 2), (-5, -5, 2), (-5, 5, 2), (-5, 5, 2), (-5, 0, 2), (-5, 0, 2),
     (5, -5, 2), (5, -5, 2), (5, 5, 2), (5, 5, 2), (5, 0, 2), (5, 0, 2),
     (0, -5, 2), (0, -5, 2), (0, 5, 2), (0, 5, 2), (0, 0, 2), (0, 0, 2)] := by
  norm_num [extremas_3d_dc, List.filter_cons, List.filter_nil, Bool.and_eq_true,
    decide_eq_true_eq]

/-- Helper: the `dx` candidates at the failing input, all at `x = ±3`. -/
theorem dx_eval : extremas_3d_dx 1 1 (-5) 5 (-5) 5 2 2 =
    [(3, -5, 2), (3, -5, 2), (3, 5, 2), (3, 5, 2),
     (-3, -5, 2), (-3, -5, 2), (-3, 5, 2), (-3, 5, 2)] := by
  norm_num [extremas_3d_dx, List.filter_cons, List.filter_nil, Bool.and_eq_true,
    decide_eq_true_eq, sqrt_27_div_sqrt_3]

/-- Helper: the `dy` candidates at the failing input, all at `y = ±3`. -/
theorem dy_eval : extremas_3d_dy 1 1 (-5) 5 (-5) 5 2 2 =
    [(-5, 3, 2), (-5, 3, 2), (5, 3, 2), (5, 3, 2),
     (-5, -3, 2), (-5, -3, 2), (5, -3, 2), (5, -3, 2)] := by
  norm_num [extremas_3d_dy, List.filter_cons, List.filter_nil, Bool.and_eq_true,
    decide_eq_true_eq, sqrt_27_div_sqrt_3]

/-- C3: at `α = β = 1`, `k = 2` and both channel activations bounded by
`[-5, 5]`, the `not_eq` candidate search of `op_d_norm` returns the bound
`[-5/216, 5/216]`, yet the point `(x, y) = (1, -1)` lies inside the box and
the true local derivative there is `1/8 > 5/216`: the returned interval
does not contain an attainable derivative value.  The omitted
`extremas_3d_dxdy` candidates (dead code in the source) contain exactly
this critical point. -/
theorem C3_norm_backward_bound_unsound :
    der_from_extremas 1 1 norm_bug_extremas = some (-(5 / 216), 5 / 216) ∧
      ((-5 : ℝ) ≤ 1 ∧ (1 : ℝ) ≤ 5 ∧ (-5 : ℝ) ≤ -1 ∧ (-1 : ℝ) ≤ 5) ∧
      der_not_eq 1 1 1 (-1) 2 = 1 / 8 ∧
      (5 / 216 : ℝ) < 1 / 8 ∧
      (1, -1, 2) ∈ extremas_3d_dxdy 1 1 (-5) 5 (-5) 5 2 2 := by
  refine ⟨?_, by norm_num, ?_, by norm_num, ?_⟩
  · rw [norm_bug_extremas, dc_eval, dx_eval, dy_eval]
    norm_num [der_from_extremas, der_not_eq_eval, min_def, max_def]
  · rw [der_not_eq_eval]
    norm_num
  · norm_num [extremas_3d_dxdy, List.filter_cons, List.filter_nil, Bool.and_eq_true,
      decide_eq_true_eq, Real.sqrt_one]

/-- Witness for C7: a one-layer network propagated forward with input `0`
and backward with seed `0`; the resulting layer holds both buffers. -/
theorem C7_propagation_order_witness :
    (DerestLayer.mk dropoutNetLayer (some (0 : ℚ)) (some (0 : ℚ))).activations.isSome ∧
      (DerestLayer.mk dropoutNetLayer (some (0 : ℚ)) (some (0 : ℚ))).derivatives.isSome :=
  (C7_propagation_order [⟨dropoutNetLayer, none, none⟩] (0 : ℚ) (0 : ℚ)).2.2
    (DerestLayer.mk dropoutNetLayer (some (0 : ℚ)) (some (0 : ℚ)))
    (by simp [DerestNetwork.count_activations, DerestNetwork.count_derivatives,
      DerestLayer.count_activation, DerestLayer.count_derivatives, dropoutNetLayer])
